import Mathlib

/-!
Verification of the response-normalization and error-classification core of a
small Node/Express proxy server (`src/server.js`).

JavaScript strings are modelled as `List Char` (`JStr`), JavaScript/JSON values
as the inductive `JsonVal` (rationals stand in for JS numbers; all arithmetic
the code performs on them is exact), and JS truthiness as `JsonVal.truthy`.
A JS property access that throws (access on `null`) is modelled with
`Except Unit`.
-/

/-- JavaScript string, modelled as a list of characters. -/
abbrev JStr := List Char

/-- The left-brace character, written via its code point. -/
def lbrace : Char := Char.ofNat 123

/-- The right-brace character, written via its code point. -/
def rbrace : Char := Char.ofNat 125

/-- Whitespace accepted between JSON tokens by `JSON.parse`. -/
def isJsonWs (c : Char) : Bool := c = ' ' || c = '\t' || c = '\n' || c = '\r'

/-- Whitespace in the sense of the JS regex class `\s` and `String.trim`
(restricted to the code points that can realistically occur here). -/
def jsWhitespace (c : Char) : Bool :=
  c = ' ' || c = '\t' || c = '\n' || c = '\r' || c = '\x0b' || c = '\x0c' ||
  c = Char.ofNat 160

/-- Drop leading JSON whitespace. -/
def skipWs (s : JStr) : JStr := s.dropWhile isJsonWs

/-- Model of JS `String.prototype.trim`. -/
def jsTrim (s : JStr) : JStr :=
  ((s.dropWhile jsWhitespace).reverse.dropWhile jsWhitespace).reverse

/-- Model of JS `text.split("\n")`: split on every newline, keeping empty
segments (`"".split` gives one empty segment). -/
def splitLines (s : JStr) : List JStr :=
  match s with
  | [] => [[]]
  | c :: rest =>
    if c = '\n' then [] :: splitLines rest
    else
      match splitLines rest with
      | l :: ls => (c :: l) :: ls
      | [] => [[c]]

/-- JSON/JS values as produced by `JSON.parse`.
Numbers are modelled as rationals. -/
inductive JsonVal where
  | null : JsonVal
  | bool : Bool → JsonVal
  | num : ℚ → JsonVal
  | str : JStr → JsonVal
  | arr : List JsonVal → JsonVal
  | obj : List (JStr × JsonVal) → JsonVal

/-- JS truthiness of a `JsonVal` (used by the `||` defaulting in
`formatForMobile`): `null`, `false`, `0` and `""` are falsy; every object and
array (including `[]`) is truthy. -/
def JsonVal.truthy : JsonVal → Bool
  | .null => false
  | .bool b => b
  | .num q => decide (q ≠ 0)
  | .str s => decide (s ≠ [])
  | .arr _ => true
  | .obj _ => true

/-- Last-wins association lookup, matching the duplicate-key behaviour of
`JSON.parse` (a later duplicate key overwrites an earlier one). -/
def lookupField : List (JStr × JsonVal) → JStr → Option JsonVal
  | [], _ => none
  | (k, v) :: rest, key =>
    match lookupField rest key with
    | some w => some w
    | none => if k = key then some v else none

/-- JS property access `v[key]`: throws on `null` (modelled as `.error ()`),
returns `undefined` (modelled as `none`) on primitives and arrays, and looks
the key up on objects. -/
def JsonVal.getField : JsonVal → JStr → Except Unit (Option JsonVal)
  | .null, _ => .error ()
  | .obj fs, key => .ok (lookupField fs key)
  | _, _ => .ok none

/-- Total variant of `JsonVal.getField`: the field value when the access
succeeds and finds one, `none` otherwise. -/
def fieldOr : JsonVal → JStr → Option JsonVal
  | .obj fs, key => lookupField fs key
  | _, _ => none

/-- Hexadecimal digit value, for `\u` escapes and `parseInt` hex prefixes. -/
def hexVal (c : Char) : Option Nat :=
  if c.isDigit then some (c.toNat - 48)
  else if 'a' ≤ c ∧ c ≤ 'f' then some (c.toNat - 87)
  else if 'A' ≤ c ∧ c ≤ 'F' then some (c.toNat - 55)
  else none

/-- Decimal value of a digit character. -/
def digitVal (c : Char) : Nat := c.toNat - 48

/-- Fold a digit list into the natural number it denotes. -/
def digitsToNat (ds : List Char) : Nat :=
  ds.foldl (fun a d => a * 10 + digitVal d) 0

/-- Body of a JSON string literal, after the opening quote: returns the
decoded characters and the remainder after the closing quote.  Handles the
JSON escapes and rejects raw control characters, as `JSON.parse` does. -/
def parseStringBody : Nat → JStr → Option (JStr × JStr)
  | 0, _ => none
  | _, [] => none
  | fuel + 1, c :: rest =>
    if c = '"' then some ([], rest)
    else if c = '\\' then
      match rest with
      | [] => none
      | e :: rest2 =>
        if e = '"' ∨ e = '\\' ∨ e = '/' then
          (parseStringBody fuel rest2).map (fun p => (e :: p.1, p.2))
        else if e = 'b' then
          (parseStringBody fuel rest2).map (fun p => (Char.ofNat 8 :: p.1, p.2))
        else if e = 'f' then
          (parseStringBody fuel rest2).map (fun p => (Char.ofNat 12 :: p.1, p.2))
        else if e = 'n' then
          (parseStringBody fuel rest2).map (fun p => ('\n' :: p.1, p.2))
        else if e = 'r' then
          (parseStringBody fuel rest2).map (fun p => ('\r' :: p.1, p.2))
        else if e = 't' then
          (parseStringBody fuel rest2).map (fun p => ('\t' :: p.1, p.2))
        else if e = 'u' then
          match rest2 with
          | h1 :: h2 :: h3 :: h4 :: rest3 =>
            match hexVal h1, hexVal h2, hexVal h3, hexVal h4 with
            | some a, some b, some g, some d =>
              (parseStringBody fuel rest3).map
                (fun p => (Char.ofNat (((a * 16 + b) * 16 + g) * 16 + d) :: p.1, p.2))
            | _, _, _, _ => none
          | _ => none
        else none
    else if c.toNat < 32 then none
    else (parseStringBody fuel rest).map (fun p => (c :: p.1, p.2))

/-- JSON number literal, per the JSON grammar (optional minus, no leading
zeros, optional fraction and exponent), evaluated exactly as a rational. -/
def parseNumber (s : JStr) : Option (ℚ × JStr) :=
  let (neg, s1) := match s with
    | '-' :: t => (true, t)
    | _ => (false, s)
  match s1 with
  | [] => none
  | c :: _ =>
    if ¬ c.isDigit then none
    else
      let ip := s1.takeWhile Char.isDigit
      let r1 := s1.dropWhile Char.isDigit
      if c = '0' ∧ ip.length ≠ 1 then none
      else
        let fracStep : Option (Nat × Nat × JStr) := match r1 with
          | '.' :: t =>
            let fd := t.takeWhile Char.isDigit
            if fd = [] then none
            else some (digitsToNat fd, fd.length, t.dropWhile Char.isDigit)
          | _ => some (0, 0, r1)
        match fracStep with
        | none => none
        | some (fracNat, k, r2) =>
          let expStep : Option (Int × JStr) := match r2 with
            | e :: t =>
              if e = 'e' ∨ e = 'E' then
                let (esgn, t2) := match t with
                  | '-' :: u => ((-1 : Int), u)
                  | '+' :: u => ((1 : Int), u)
                  | _ => ((1 : Int), t)
                let ed := t2.takeWhile Char.isDigit
                if ed = [] then none
                else some (esgn * (digitsToNat ed : Int), t2.dropWhile Char.isDigit)
              else some (0, r2)
            | [] => some (0, [])
          match expStep with
          | none => none
          | some (ex, r3) =>
            let mag : Int := (digitsToNat ip : Int) * (10 : Int) ^ k + (fracNat : Int)
            let mantissa : Int := if neg then -mag else mag
            let q : ℚ :=
              if 0 ≤ ex then mkRat (mantissa * (10 : Int) ^ ex.toNat) ((10 : Nat) ^ k)
              else mkRat mantissa ((10 : Nat) ^ k * (10 : Nat) ^ (-ex).toNat)
            some (q, r3)

mutual

/-- One JSON value, fuel-indexed recursive-descent model of `JSON.parse`. -/
def parseValue : Nat → JStr → Option (JsonVal × JStr)
  | 0, _ => none
  | fuel + 1, s =>
    match s with
    | [] => none
    | c :: rest =>
      if c = lbrace then
        match skipWs rest with
        | d :: rest2 =>
          if d = rbrace then some (.obj [], rest2)
          else (parseFields fuel (d :: rest2)).map (fun p => (.obj p.1, p.2))
        | [] => none
      else if c = '[' then
        match skipWs rest with
        | d :: rest2 =>
          if d = ']' then some (.arr [], rest2)
          else (parseElems fuel (d :: rest2)).map (fun p => (.arr p.1, p.2))
        | [] => none
      else if c = '"' then
        (parseStringBody (rest.length + 1) rest).map (fun p => (.str p.1, p.2))
      else if c = 't' then
        match rest with
        | 'r' :: 'u' :: 'e' :: r => some (.bool true, r)
        | _ => none
      else if c = 'f' then
        match rest with
        | 'a' :: 'l' :: 's' :: 'e' :: r => some (.bool false, r)
        | _ => none
      else if c = 'n' then
        match rest with
        | 'u' :: 'l' :: 'l' :: r => some (.null, r)
        | _ => none
      else (parseNumber (c :: rest)).map (fun p => (.num p.1, p.2))

/-- Comma-separated JSON array elements up to the closing bracket. -/
def parseElems : Nat → JStr → Option (List JsonVal × JStr)
  | 0, _ => none
  | fuel + 1, s =>
    match parseValue fuel (skipWs s) with
    | none => none
    | some (v, r) =>
      match skipWs r with
      | c :: r2 =>
        if c = ',' then (parseElems fuel r2).map (fun p => (v :: p.1, p.2))
        else if c = ']' then some ([v], r2)
        else none
      | [] => none

/-- Comma-separated JSON object members up to the closing brace. -/
def parseFields : Nat → JStr → Option (List (JStr × JsonVal) × JStr)
  | 0, _ => none
  | fuel + 1, s =>
    match skipWs s with
    | q :: r =>
      if q = '"' then
        match parseStringBody (r.length + 1) r with
        | none => none
        | some (key, r2) =>
          match skipWs r2 with
          | colon :: r3 =>
            if colon = ':' then
              match parseValue fuel (skipWs r3) with
              | none => none
              | some (v, r4) =>
                match skipWs r4 with
                | w :: r5 =>
                  if w = ',' then (parseFields fuel r5).map (fun p => ((key, v) :: p.1, p.2))
                  else if w = rbrace then some ([(key, v)], r5)
                  else none
                | [] => none
            else none
          | [] => none
      else none
    | [] => none

end

/-- Model of `JSON.parse(content)` for a string `content`: `some v` when
parsing succeeds with value `v`, `none` when `JSON.parse` would throw. -/
def jsonParse (s : JStr) : Option JsonVal :=
  match parseValue (2 * s.length + 8) (skipWs s) with
  | some (v, r) => if skipWs r = [] then some v else none
  | none => none

/-- The key `summary_points`. -/
def sumKey : JStr := ("summary_points").toList

/-- The key `detailed_flow`. -/
def flowKey : JStr := ("detailed_flow").toList

/-- The key `code_snippets`. -/
def csKey : JStr := ("code_snippets").toList

/-- The key `confidence`. -/
def confKey : JStr := ("confidence").toList

/-- The ellipsis marker appended by the truncating defaults. -/
def ellipsis : JStr := ("...").toList

/-- The default summary point `"Response received"`. -/
def rcvdMsg : JStr := ("Response received").toList

/-- The default confidence `0.8` of the merge step and the heuristic path. -/
def confDefault : ℚ := mkRat 4 5

/-- Does a line start with one of the bullet markers, as in
`line.startsWith("•") || line.startsWith("-") || line.startsWith("*")`. -/
def isBulletStart (l : JStr) : Bool :=
  match l with
  | [] => false
  | c :: _ => c = '•' || c = '-' || c = '*'

/-- Model of `line.replace(/^[•\-*]\s*/, "").trim()` for a line that starts
with a bullet marker: drop the marker, the whitespace after it, and trim. -/
def stripBullet (l : JStr) : JStr :=
  jsTrim ((l.drop 1).dropWhile jsWhitespace)

/-- The `for (const line of lines)` loop of `parseTextResponse`: collect the
stripped bullet lines in order, and take as detailed flow the trimmed first
non-bullet line longer than 20 characters. -/
def collectLoop : List JStr → List JStr × JStr
  | [] => ([], [])
  | l :: rest =>
    if isBulletStart l then (stripBullet l :: (collectLoop rest).1, (collectLoop rest).2)
    else if l.length > 20 then ((collectLoop rest).1, jsTrim l)
    else collectLoop rest

/-- The non-blank lines of the text:
`text.split("\n").filter((line) => line.trim())`. -/
def respLines (text : JStr) : List JStr :=
  (splitLines text).filter (fun l => jsTrim l ≠ [])

/-- The `summary_points` value returned by `parseTextResponse`: the collected
points capped at 5, or a single truncated-text point when none were found. -/
def respPoints (text : JStr) : List JsonVal :=
  if (collectLoop (respLines text)).1.length > 0 then
    (((collectLoop (respLines text)).1.take 5).map .str)
  else [.str (text.take 50 ++ ellipsis)]

/-- The `detailed_flow` value returned by `parseTextResponse`: the collected
flow line, or the first 200 characters of the text plus an ellipsis. -/
def respFlow (text : JStr) : JStr :=
  if (collectLoop (respLines text)).2 ≠ [] then (collectLoop (respLines text)).2
  else text.take 200 ++ ellipsis

/-- Model of `parseTextResponse(text)` from `src/server.js`: the plain object
`{summary_points, detailed_flow, confidence: 0.8}` built by the heuristic. -/
def parseTextResponse (text : JStr) : JsonVal :=
  .obj [(sumKey, .arr (respPoints text)),
        (flowKey, .str (respFlow text)),
        (confKey, .num confDefault)]

/-- JS `x || d` defaulting over a possibly-undefined value: the value itself
when it is present and truthy, the default otherwise. -/
def jsOr (v : Option JsonVal) (d : JsonVal) : JsonVal :=
  match v with
  | some x => if x.truthy then x else d
  | none => d

/-- The normalized output record.  Field values are JS values, since the JSON
path of `formatForMobile` passes parsed values through without shape checks;
`code_snippets := none` models the field being `undefined`/absent. -/
structure MobileSummary where
  summary_points : JsonVal
  detailed_flow : JsonVal
  code_snippets : Option JsonVal
  confidence : JsonVal
  mobile_optimized : Bool

/-- The fixed fallback record of `formatForMobile`'s `catch` branch. -/
def fallbackRecord : MobileSummary :=
  { summary_points := .arr [.str (("Error processing response").toList)],
    detailed_flow := .str (("Unable to format response properly").toList),
    code_snippets := none,
    confidence := .num (mkRat 1 2),
    mobile_optimized := true }

/-- The record-building step of `formatForMobile`: read the four fields off
`parsedContent` (each access throws when `parsedContent` is `null`) and apply
the `||` defaults.  `content` is the extracted text, used by the
`detailed_flow` default. -/
def formatCandidate (content : JStr) (parsedContent : JsonVal) :
    Except Unit MobileSummary :=
  match parsedContent.getField sumKey with
  | .error e => .error e
  | .ok sp =>
    match parsedContent.getField flowKey with
    | .error e => .error e
    | .ok df =>
      match parsedContent.getField csKey with
      | .error e => .error e
      | .ok cs =>
        match parsedContent.getField confKey with
        | .error e => .error e
        | .ok cf =>
          .ok { summary_points := jsOr sp (.arr [.str rcvdMsg]),
                detailed_flow := jsOr df (.str (content.take 200 ++ ellipsis)),
                code_snippets := cs,
                confidence := jsOr cf (.num confDefault),
                mobile_optimized := true }

/-- Per-field description of the same record-building step, with the field
reads made total (used to state the merge rule). -/
def mergeSpec (content : JStr) (parsedContent : JsonVal) : MobileSummary :=
  { summary_points := jsOr (fieldOr parsedContent sumKey) (.arr [.str rcvdMsg]),
    detailed_flow :=
      jsOr (fieldOr parsedContent flowKey) (.str (content.take 200 ++ ellipsis)),
    code_snippets := fieldOr parsedContent csKey,
    confidence := jsOr (fieldOr parsedContent confKey) (.num confDefault),
    mobile_optimized := true }

/-- The upstream payload as `formatForMobile` sees it: either its first
content block carries a text (`claudeResponse.content[0].text` evaluates to
the string), or that extraction itself throws (`malformed`). -/
inductive RawPayload where
  | withText : JStr → RawPayload
  | malformed : RawPayload

/-- The `parsedContent` of `formatForMobile`: the `JSON.parse` result when the
text parses, the heuristic object otherwise. -/
def parsedOf (content : JStr) : JsonVal :=
  match jsonParse content with
  | some v => v
  | none => parseTextResponse content

/-- Model of `formatForMobile(claudeResponse)` from `src/server.js`: extract
the text, parse it (JSON first, heuristic fallback), build the record, and
degrade to `fallbackRecord` when anything in the `try` block throws. -/
def formatForMobile : RawPayload → MobileSummary
  | .malformed => fallbackRecord
  | .withText content =>
    match formatCandidate content (parsedOf content) with
    | .ok r => r
    | .error _ => fallbackRecord

/-- The error codes appearing in `src/server.js` (as `code` fields of thrown
objects and of HTTP error responses). -/
inductive ErrorKind where
  | INVALID_PROMPT
  | PROMPT_TOO_LONG
  | RATE_LIMIT_EXCEEDED
  | INVALID_REQUEST
  | AUTHENTICATION_ERROR
  | TIMEOUT
  | UNKNOWN_ERROR
  | INTERNAL_ERROR
deriving DecidableEq

/-- Model of JS `parseInt(s)` (radix unspecified): skip leading whitespace,
read an optional sign, a `0x`/`0X` hex prefix or leading decimal digits;
`none` models the result `NaN`. -/
def jsParseIntChars (s : JStr) : Option Int :=
  let (sgn, s1) : Int × JStr := match s.dropWhile jsWhitespace with
    | '-' :: t => (-1, t)
    | '+' :: t => (1, t)
    | t => (1, t)
  match s1 with
  | '0' :: x :: t =>
    if x = 'x' ∨ x = 'X' then
      let hd := t.takeWhile (fun c => (hexVal c).isSome)
      if hd = [] then none
      else some (sgn * (hd.foldl (fun a c => a * 16 + ((hexVal c).getD 0)) 0 : Nat))
    else
      let ds := ('0' :: x :: t).takeWhile Char.isDigit
      some (sgn * (digitsToNat ds : Nat))
  | _ =>
    let ds := s1.takeWhile Char.isDigit
    if ds = [] then none else some (sgn * (digitsToNat ds : Nat))

/-- JS `parseInt` on a Lean `String`. -/
def jsParseInt (s : String) : Option Int := jsParseIntChars s.toList

/-- A classified error as thrown by `callClaude`: the `code`, the `message`,
and (for rate limiting) the parsed `retryAfter`, where the inner `none`
models `NaN`. -/
structure ClassifiedError where
  code : ErrorKind
  message : String
  retryAfter : Option (Option Int)
deriving DecidableEq

/-- The part of an axios response that `callClaude`'s catch block inspects:
the HTTP status and the `retry-after` header (absent modelled as `none`). -/
structure AxiosResponse where
  status : Nat
  retryAfterHeader : Option String
deriving DecidableEq

/-- The part of an axios error that `callClaude`'s catch block inspects:
`error.response` (absent for transport failures), `error.code` and
`error.message`. -/
structure AxiosError where
  response : Option AxiosResponse
  code : Option String
  message : Option String
deriving DecidableEq

/-- JS `x || d` on a possibly-absent string: returns `d` when `x` is absent
or empty. -/
def jsOrStr (x : Option String) (d : String) : String :=
  match x with
  | some s => if s = "" then d else s
  | none => d

/-- The `retryAfter` computed for a 429:
`parseInt(error.response.headers["retry-after"] || 60)`. -/
def rateLimitRetryAfter (h : Option String) : Option Int :=
  match h with
  | some s => if s = "" then some 60 else jsParseInt s
  | none => some 60

/-- The catch block of `callClaude` in `src/server.js`: classify a failed
upstream call, first match wins (429, then 400, then 401, then
`ECONNABORTED`, then unknown). -/
def classifyUpstreamError (e : AxiosError) : ClassifiedError :=
  match e.response with
  | some r =>
    if r.status = 429 then
      { code := .RATE_LIMIT_EXCEEDED, message := "Rate limit exceeded",
        retryAfter := some (rateLimitRetryAfter r.retryAfterHeader) }
    else if r.status = 400 then
      { code := .INVALID_REQUEST, message := "Invalid request format or parameters",
        retryAfter := none }
    else if r.status = 401 then
      { code := .AUTHENTICATION_ERROR, message := "Authentication failed",
        retryAfter := none }
    else if e.code = some ("ECONNABORTED") then
      { code := .TIMEOUT, message := "Request timeout", retryAfter := none }
    else
      { code := .UNKNOWN_ERROR, message := jsOrStr e.message ("Unknown error occurred"),
        retryAfter := none }
  | none =>
    if e.code = some ("ECONNABORTED") then
      { code := .TIMEOUT, message := "Request timeout", retryAfter := none }
    else
      { code := .UNKNOWN_ERROR, message := jsOrStr e.message ("Unknown error occurred"),
        retryAfter := none }

/-- An HTTP reply of the `/api/query` handler: an error response with status
and `code` body field (and optional `retryAfter`), or a success carrying the
formatted data. -/
inductive QueryResponse where
  | failure : Nat → ErrorKind → Option Int → QueryResponse
  | success : MobileSummary → QueryResponse

/-- JS `error.retryAfter || 60` where the field may be absent or `NaN`. -/
def jsOrRetry (v : Option (Option Int)) : Int :=
  match v with
  | some (some n) => if n = 0 then 60 else n
  | some none => 60
  | none => 60

/-- The catch block of the `/api/query` route: map a classified error thrown
by `callClaude` to an HTTP error response, first match wins, with a generic
500 `INTERNAL_ERROR` for everything unrecognized. -/
def errorToResponse (error : ClassifiedError) : QueryResponse :=
  if error.code = .RATE_LIMIT_EXCEEDED then
    .failure 429 .RATE_LIMIT_EXCEEDED (some (jsOrRetry error.retryAfter))
  else if error.code = .INVALID_REQUEST then .failure 400 .INVALID_REQUEST none
  else if error.code = .AUTHENTICATION_ERROR then .failure 401 .AUTHENTICATION_ERROR none
  else if error.code = .TIMEOUT then .failure 504 .TIMEOUT none
  else .failure 500 .INTERNAL_ERROR none

/-- The `prompt` field of a request body as the validation sees it: a string,
or some non-string JS value (of which only truthiness matters). -/
inductive PromptVal where
  | str : String → PromptVal
  | nonString : Bool → PromptVal
deriving DecidableEq

/-- The validation test `!prompt || typeof prompt !== "string"`. -/
def promptInvalid : Option PromptVal → Bool
  | some (.str s) => s.length = 0
  | some (.nonString _) => true
  | none => true

/-- The length used by the over-length check (0 for the cases that never
reach it). -/
def promptLength : Option PromptVal → Nat
  | some (.str s) => s.length
  | _ => 0

/-- Model of the `/api/query` handler: validate the prompt, then consult the
upstream outcome (success payload or axios failure), normalize or classify.
The upstream outcome is a parameter, so a result that is independent of it
corresponds to a request handled without any outbound call. -/
def handleQuery (prompt : Option PromptVal)
    (upstream : Except AxiosError RawPayload) : QueryResponse :=
  if promptInvalid prompt then .failure 400 .INVALID_PROMPT none
  else if promptLength prompt > 10000 then .failure 400 .PROMPT_TOO_LONG none
  else
    match upstream with
    | .ok payload => .success (formatForMobile payload)
    | .error e => errorToResponse (classifyUpstreamError e)

/-- The status the spec assigns to each error kind. -/
def specStatusFor : ErrorKind → Nat
  | .INVALID_PROMPT => 400
  | .PROMPT_TOO_LONG => 400
  | .INVALID_REQUEST => 400
  | .AUTHENTICATION_ERROR => 401
  | .RATE_LIMIT_EXCEEDED => 429
  | .TIMEOUT => 504
  | .UNKNOWN_ERROR => 500
  | .INTERNAL_ERROR => 500

/-- Does a value satisfy the MobileSummary bound on `summary_points`: a list
of length between 1 and 5. -/
def pointsLenOk : JsonVal → Bool
  | .arr xs => decide (1 ≤ xs.length) && decide (xs.length ≤ 5)
  | _ => false

/-- Does a value satisfy the MobileSummary bound on `confidence`: a number in
the interval from 0 to 1. -/
def confOk : JsonVal → Bool
  | .num q => decide (0 ≤ q) && decide (q ≤ 1)
  | _ => false

/-- The non-blank lines of a text that start with a bullet marker. -/
def bulletLines (text : JStr) : List JStr :=
  (respLines text).filter isBulletStart

/-- A JSON object in exactly the expected response shape: `summary_points` (a
list of strings), `detailed_flow` (a string), optionally `code_snippets`, and
`confidence` (a number). -/
def expectedShape (sp : List JStr) (df : JStr) (cs : Option JsonVal) (cf : ℚ) : JsonVal :=
  .obj ([(sumKey, .arr (sp.map .str)), (flowKey, .str df)] ++
    (match cs with
     | some c => [(csKey, c)]
     | none => []) ++
    [(confKey, .num cf)])

/-- A payload text that is valid JSON with six summary points. -/
def sixPointsText : JStr := ("\x7b\"summary_points\":[1,2,3,4,5,6]\x7d").toList

/-- A payload text that is valid JSON with an empty summary-point list. -/
def emptyPointsText : JStr := ("\x7b\"summary_points\":[]\x7d").toList

/-- A payload text in the expected shape whose confidence is 0. -/
def zeroConfText : JStr :=
  ("\x7b\"summary_points\":[\"a\"],\"detailed_flow\":\"b\",\"confidence\":0\x7d").toList

/-- A payload text in the expected shape with confidence 1. -/
def oneConfText : JStr :=
  ("\x7b\"summary_points\":[\"a\"],\"detailed_flow\":\"b\",\"confidence\":1\x7d").toList

/-- The payload text `null`, which is valid JSON but parses to a value whose
field accesses throw. -/
def nullText : JStr := ("null").toList

/-- A payload text that is valid JSON with a confidence of 7. -/
def sevenConfText : JStr := ("\x7b\"confidence\":7\x7d").toList

/-- The spec's bullet-heuristic example text. -/
def bulletExampleText : JStr :=
  ("• A\n• B\nSome long explanatory line here that exceeds twenty chars\n• C").toList

/-- The explanatory line of the bullet-heuristic example. -/
def bulletExampleFlow : JStr :=
  ("Some long explanatory line here that exceeds twenty chars").toList

/-- A JSON-free 300-character text that is one single long line. -/
def longLineText : JStr := List.replicate 300 'a'

/-- A JSON-free 300-character text consisting of twenty 14-character lines. -/
def shortLinesText : JStr :=
  (List.replicate 20 (List.replicate 14 'a' ++ ['\n'])).flatten

/-- A prompt of exactly 10001 characters. -/
def longPrompt : String := String.mk (List.replicate 10001 'a')

theorem getField_ne_null (v : JsonVal) (k : JStr) (h : v ≠ .null) :
    v.getField k = .ok (fieldOr v k) := by
  cases v with
  | null => exact absurd rfl h
  | bool b => rfl
  | num q => rfl
  | str s => rfl
  | arr xs => rfl
  | obj fs => rfl

theorem formatCandidate_eq (c : JStr) (pc : JsonVal) (h : pc ≠ .null) :
    formatCandidate c pc = .ok (mergeSpec c pc) := by
  cases pc with
  | null => exact absurd rfl h
  | bool b => rfl
  | num q => rfl
  | str s => rfl
  | arr xs => rfl
  | obj fs => rfl

theorem formatCandidate_null (c : JStr) : formatCandidate c .null = .error () := rfl

theorem parseTextResponse_ne_null (t : JStr) : parseTextResponse t ≠ .null := by
  simp [parseTextResponse]

theorem respFlow_ne_nil (t : JStr) : respFlow t ≠ [] := by
  unfold respFlow
  split
  case isTrue h => exact h
  case isFalse h => simp [ellipsis]

theorem respPoints_len (t : JStr) :
    1 ≤ (respPoints t).length ∧ (respPoints t).length ≤ 5 := by
  unfold respPoints
  split
  case isTrue h =>
    rw [List.length_map, List.length_take]
    omega
  case isFalse h => simp

theorem mergeSpec_text (c t : JStr) :
    mergeSpec c (parseTextResponse t) =
      { summary_points := .arr (respPoints t),
        detailed_flow := .str (respFlow t),
        code_snippets := none,
        confidence := .num confDefault,
        mobile_optimized := true } := by
  have h1 : fieldOr (parseTextResponse t) sumKey = some (.arr (respPoints t)) := rfl
  have h2 : fieldOr (parseTextResponse t) flowKey = some (.str (respFlow t)) := rfl
  have h3 : fieldOr (parseTextResponse t) csKey = none := rfl
  have h4 : fieldOr (parseTextResponse t) confKey = some (.num confDefault) := rfl
  have hflow : decide (respFlow t ≠ []) = true := by
    simpa using respFlow_ne_nil t
  simp only [mergeSpec, h1, h2, h3, h4, jsOr, JsonVal.truthy, hflow, if_true, ite_self]

theorem parsedOf_json (t : JStr) (v : JsonVal) (h : jsonParse t = some v) :
    parsedOf t = v := by
  unfold parsedOf
  rw [h]

theorem parsedOf_text (t : JStr) (h : jsonParse t = none) :
    parsedOf t = parseTextResponse t := by
  unfold parsedOf
  rw [h]

theorem formatForMobile_heuristic (t : JStr) (h : jsonParse t = none) :
    formatForMobile (.withText t) =
      { summary_points := .arr (respPoints t),
        detailed_flow := .str (respFlow t),
        code_snippets := none,
        confidence := .num confDefault,
        mobile_optimized := true } := by
  simp only [formatForMobile, parsedOf_text t h,
    formatCandidate_eq t (parseTextResponse t) (parseTextResponse_ne_null t),
    mergeSpec_text]

theorem formatForMobile_json (t : JStr) (v : JsonVal) (hv : jsonParse t = some v)
    (hn : v ≠ .null) : formatForMobile (.withText t) = mergeSpec t v := by
  simp only [formatForMobile, parsedOf_json t v hv, formatCandidate_eq t v hn]

theorem formatForMobile_nullText (t : JStr) (hv : jsonParse t = some .null) :
    formatForMobile (.withText t) = fallbackRecord := by
  simp only [formatForMobile, parsedOf_json t .null hv, formatCandidate_null]

theorem collectLoop_fst (lines : List JStr) :
    (collectLoop lines).1 = (lines.filter isBulletStart).map stripBullet := by
  induction lines with
  | nil => rfl
  | cons l rest ih =>
    by_cases hb : isBulletStart l
    · simp [collectLoop, hb, List.filter_cons, ih]
    · by_cases hl : l.length > 20 <;> simp [collectLoop, hb, hl, List.filter_cons, ih]

theorem collectLoop_snd_nil (lines : List JStr) (h : ∀ l ∈ lines, l.length ≤ 20) :
    (collectLoop lines).2 = [] := by
  induction lines with
  | nil => rfl
  | cons l rest ih =>
    have hl : l.length ≤ 20 := h l (List.mem_cons_self l rest)
    have hrest := ih (fun x hx => h x (List.mem_cons_of_mem l hx))
    by_cases hb : isBulletStart l
    · simp [collectLoop, hb, hrest]
    · have hgt : ¬ l.length > 20 := by omega
      simp [collectLoop, hb, hgt, hrest]

set_option maxRecDepth 100000

theorem formatForMobile_mobile (p : RawPayload) :
    (formatForMobile p).mobile_optimized = true := by
  cases p with
  | malformed => rfl
  | withText t =>
    by_cases hn : parsedOf t = JsonVal.null
    · simp only [formatForMobile, hn, formatCandidate_null]
      rfl
    · simp only [formatForMobile, formatCandidate_eq t (parsedOf t) hn]
      rfl

theorem heuristic_points_ok (t : JStr) (h : jsonParse t = none) :
    pointsLenOk (formatForMobile (.withText t)).summary_points = true := by
  rw [formatForMobile_heuristic t h]
  have hb := respPoints_len t
  simp [pointsLenOk, hb.1, hb.2]

/-- C1: the claim that `formatForMobile` always returns `summary_points` of
length 1 to 5 is false: a payload whose text is valid JSON with a six-element
`summary_points` array has that array passed through unchecked (JS `x || d`
keeps any array, `[]` included, since arrays are truthy). -/
theorem C1_counterexample :
    (formatForMobile (.withText sixPointsText)).summary_points =
      .arr [.num 1, .num 2, .num 3, .num 4, .num 5, .num 6]
    ∧ pointsLenOk (formatForMobile (.withText sixPointsText)).summary_points = false :=
  ⟨rfl, rfl⟩

/-- C1 (amended): `formatForMobile` is total by construction and always sets
`mobile_optimized = true`; on the heuristic path (text that is not valid
JSON) and on the fallback path `summary_points` is a list of length 1 to 5;
but on the JSON path the parsed `summary_points` is passed through
unvalidated, so the bound can fail there. -/
theorem C1_amended :
    (∀ p, (formatForMobile p).mobile_optimized = true)
    ∧ (∀ t : JStr, jsonParse t = none →
        pointsLenOk (formatForMobile (.withText t)).summary_points = true)
    ∧ pointsLenOk (formatForMobile RawPayload.malformed).summary_points = true :=
  ⟨formatForMobile_mobile, heuristic_points_ok, rfl⟩

/-- C1 witness: the amended theorem applied to the JSON-free text `hello`. -/
theorem C1_witness :
    pointsLenOk (formatForMobile (.withText (("hello").toList))).summary_points = true :=
  C1_amended.2.1 (("hello").toList) rfl

/-- C2: the round-trip claim is false as stated: a shape-conforming JSON text
with `confidence: 0` does not come back unchanged — the JS `||` default
replaces the present value 0 by 0.8. -/
theorem C2_counterexample :
    jsonParse zeroConfText = some (expectedShape [("a").toList] (("b").toList) none 0)
    ∧ (formatForMobile (.withText zeroConfText)).confidence = .num confDefault
    ∧ confDefault ≠ 0 :=
  ⟨rfl, rfl, by decide⟩

/-- C2 (amended): for a payload text that is valid JSON in the expected
shape, `formatForMobile` returns `summary_points` and `code_snippets`
unchanged, and `detailed_flow` and `confidence` unchanged provided they are
truthy (a nonempty string, a nonzero number); omitted `code_snippets` stays
absent. -/
theorem C2_amended (t : JStr) (sp : List JStr) (df : JStr) (cs : Option JsonVal) (cf : ℚ)
    (hp : jsonParse t = some (expectedShape sp df cs cf))
    (hdf : df ≠ []) (hcf : cf ≠ 0) :
    formatForMobile (.withText t) =
      { summary_points := .arr (sp.map .str),
        detailed_flow := .str df,
        code_snippets := cs,
        confidence := .num cf,
        mobile_optimized := true } := by
  have hne : expectedShape sp df cs cf ≠ .null := by
    cases cs <;> simp [expectedShape]
  rw [formatForMobile_json t _ hp hne]
  cases cs with
  | none =>
    have h1 : fieldOr (expectedShape sp df none cf) sumKey = some (.arr (sp.map .str)) := rfl
    have h2 : fieldOr (expectedShape sp df none cf) flowKey = some (.str df) := rfl
    have h3 : fieldOr (expectedShape sp df none cf) csKey = none := rfl
    have h4 : fieldOr (expectedShape sp df none cf) confKey = some (.num cf) := rfl
    simp only [mergeSpec, h1, h2, h3, h4, jsOr, JsonVal.truthy]
    simp [hdf, hcf]
  | some c =>
    have h1 : fieldOr (expectedShape sp df (some c) cf) sumKey = some (.arr (sp.map .str)) := rfl
    have h2 : fieldOr (expectedShape sp df (some c) cf) flowKey = some (.str df) := rfl
    have h3 : fieldOr (expectedShape sp df (some c) cf) csKey = some c := rfl
    have h4 : fieldOr (expectedShape sp df (some c) cf) confKey = some (.num cf) := rfl
    simp only [mergeSpec, h1, h2, h3, h4, jsOr, JsonVal.truthy]
    simp [hdf, hcf]

/-- C2 witness: the amended round trip at a concrete conforming JSON text
with confidence 1. -/
theorem C2_witness :
    formatForMobile (.withText oneConfText) =
      { summary_points := .arr ([("a").toList].map .str),
        detailed_flow := .str (("b").toList),
        code_snippets := none,
        confidence := .num 1,
        mobile_optimized := true } :=
  C2_amended oneConfText [("a").toList] (("b").toList) none 1 rfl (by decide) one_ne_zero

/-- C3: the merge-rule claim is false for a present-but-empty candidate
`summary_points`: JS `[] || d` keeps `[]` (arrays are truthy), so the empty
array is not replaced by the default single-element list. -/
theorem C3_counterexample :
    (formatForMobile (.withText emptyPointsText)).summary_points = .arr []
    ∧ JsonVal.arr [] ≠ .arr [.str rcvdMsg] :=
  ⟨rfl, by simp⟩

/-- C3 (amended): each output field of the record-building step equals the
candidate value when that value is present and truthy, and otherwise its
field-specific default; `code_snippets` is passed through exactly as read;
`mobile_optimized` is always true.  Truthiness differs from non-emptiness:
every array, `[]` included, is truthy and is kept. -/
theorem C3_amended :
    (∀ (c : JStr) (pc : JsonVal), pc ≠ .null → formatCandidate c pc = .ok (mergeSpec c pc))
    ∧ (∀ d, jsOr none d = d)
    ∧ (∀ v d, v.truthy = true → jsOr (some v) d = v)
    ∧ (∀ v d, v.truthy = false → jsOr (some v) d = d)
    ∧ (JsonVal.arr []).truthy = true
    ∧ (∀ (c : JStr) (pc : JsonVal), (mergeSpec c pc).mobile_optimized = true) := by
  refine ⟨formatCandidate_eq, fun d => rfl, fun v d hv => ?_, fun v d hv => ?_, rfl,
    fun c pc => rfl⟩
  · simp [jsOr, hv]
  · simp [jsOr, hv]

/-- C3 witness: the record-building step on a concrete non-null candidate. -/
theorem C3_witness :
    formatCandidate (("x").toList) (.obj []) = .ok (mergeSpec (("x").toList) (.obj [])) :=
  C3_amended.1 (("x").toList) (.obj []) (by simp)

/-- C4: the claim that the fallback record appears exactly when text
extraction faults is false: the text `null` extracts fine, is valid JSON, but
parses to `null`, whose property accesses throw, so the catch block returns
the fallback as well. -/
theorem C4_counterexample :
    formatForMobile (.withText nullText) = fallbackRecord
    ∧ formatCandidate nullText (parsedOf nullText) = .error () :=
  ⟨formatForMobile_nullText nullText rfl, rfl⟩

/-- C4 (amended): the malformed-payload case yields the fallback record; for
an extracted text the record-building step throws exactly when the text
parses as JSON `null`; and whenever the record-building step succeeds its
record is the result of `formatForMobile`. -/
theorem C4_amended :
    formatForMobile RawPayload.malformed = fallbackRecord
    ∧ (∀ t : JStr, formatCandidate t (parsedOf t) = .error () ↔ jsonParse t = some .null)
    ∧ (∀ (t : JStr) (r : MobileSummary), formatCandidate t (parsedOf t) = .ok r →
        formatForMobile (.withText t) = r) := by
  refine ⟨rfl, fun t => ⟨fun h => ?_, fun h => ?_⟩, fun t r h => ?_⟩
  · have hnull : parsedOf t = JsonVal.null := by
      by_contra hne
      rw [formatCandidate_eq t _ hne] at h
      exact Except.noConfusion h
    cases hj : jsonParse t with
    | none =>
      exact absurd (parsedOf_text t hj ▸ hnull) (parseTextResponse_ne_null t)
    | some v =>
      have hv : v = JsonVal.null := by rw [← parsedOf_json t v hj]; exact hnull
      rw [hv]
  · rw [parsedOf_json t .null h]
    exact formatCandidate_null t
  · simp only [formatForMobile, h]

/-- C4 witness: the success direction at the JSON-free text `hello`. -/
theorem C4_witness :
    formatForMobile (.withText (("hello").toList)) =
      { summary_points := .arr [.str (("hello...").toList)],
        detailed_flow := .str (("hello...").toList),
        code_snippets := none,
        confidence := .num confDefault,
        mobile_optimized := true } :=
  C4_amended.2.2 (("hello").toList) _ rfl

theorem respPoints_of_bullets (t : JStr) (h : bulletLines t ≠ []) :
    respPoints t = ((bulletLines t).take 5).map (fun l => .str (stripBullet l)) := by
  have hfst : (collectLoop (respLines t)).1 = (bulletLines t).map stripBullet := by
    rw [collectLoop_fst]; rfl
  have hpos : (collectLoop (respLines t)).1.length > 0 := by
    rw [hfst, List.length_map]
    exact List.length_pos.mpr h
  unfold respPoints
  rw [if_pos hpos, hfst, ← List.map_take, List.map_map]
  rfl

/-- C8: bullet heuristic, confirmed.  A (non-blank) line contributes a
summary point exactly when it starts with `•`, `-` or `*`; the marker and the
whitespace after it are stripped (the code also trims trailing whitespace);
at most 5 points are kept in source order.  On the spec's example text the
result is `["A","B","C"]` with the explanatory line as detailed flow. -/
theorem C8_theorem :
    (∀ t : JStr, bulletLines t ≠ [] →
      fieldOr (parseTextResponse t) sumKey =
        some (.arr (((bulletLines t).take 5).map (fun l => .str (stripBullet l)))))
    ∧ parseTextResponse bulletExampleText =
        .obj [(sumKey, .arr [.str (("A").toList), .str (("B").toList), .str (("C").toList)]),
              (flowKey, .str bulletExampleFlow),
              (confKey, .num confDefault)] := by
  constructor
  · intro t h
    have hs : fieldOr (parseTextResponse t) sumKey = some (.arr (respPoints t)) := rfl
    rw [hs, respPoints_of_bullets t h]
  · rfl

/-- C8 witness: the general bullet characterization applied to the example
text. -/
theorem C8_witness :
    fieldOr (parseTextResponse bulletExampleText) sumKey =
      some (.arr (((bulletLines bulletExampleText).take 5).map
        (fun l => .str (stripBullet l)))) :=
  C8_theorem.1 bulletExampleText (by decide)

/-- C9: the truncation claim is false as stated: a 300-character JSON-free
bullet-free text that is a single line becomes the detailed flow in full
(any line longer than 20 characters is taken verbatim, only the no-such-line
default truncates to 200 characters). -/
theorem C9_counterexample :
    longLineText.length = 300
    ∧ jsonParse longLineText = none
    ∧ bulletLines longLineText = []
    ∧ (formatForMobile (.withText longLineText)).detailed_flow = .str longLineText
    ∧ longLineText ≠ longLineText.take 200 ++ ellipsis :=
  ⟨rfl, rfl, rfl, rfl, by decide⟩

/-- C9 (amended): for a 300-character JSON-free text with no bullet lines,
`summary_points` is the single truncated-to-50 point; and if additionally no
non-blank line is longer than 20 characters, `detailed_flow` is the first 200
characters plus the ellipsis (otherwise it is the first such long line,
trimmed). -/
theorem C9_amended (t : JStr) (_hlen : t.length = 300) (hj : jsonParse t = none)
    (hb : ∀ l ∈ respLines t, isBulletStart l = false) :
    (formatForMobile (.withText t)).summary_points = .arr [.str (t.take 50 ++ ellipsis)]
    ∧ ((∀ l ∈ respLines t, l.length ≤ 20) →
        (formatForMobile (.withText t)).detailed_flow = .str (t.take 200 ++ ellipsis)) := by
  have hfilter : (respLines t).filter isBulletStart = [] := by
    apply List.filter_eq_nil_iff.mpr
    intro a ha
    simp [hb a ha]
  have hpts : (collectLoop (respLines t)).1 = [] := by
    rw [collectLoop_fst, hfilter]
    rfl
  rw [formatForMobile_heuristic t hj]
  constructor
  · show JsonVal.arr (respPoints t) = _
    unfold respPoints
    rw [hpts]
    simp
  · intro hshort
    have hdf : (collectLoop (respLines t)).2 = [] := collectLoop_snd_nil _ hshort
    show JsonVal.str (respFlow t) = _
    unfold respFlow
    rw [hdf]
    simp

/-- C9 witness: the amended claim at a 300-character text of twenty
14-character lines. -/
theorem C9_witness :
    (formatForMobile (.withText shortLinesText)).summary_points =
      .arr [.str (shortLinesText.take 50 ++ ellipsis)]
    ∧ (formatForMobile (.withText shortLinesText)).detailed_flow =
      .str (shortLinesText.take 200 ++ ellipsis) := by
  have h := C9_amended shortLinesText rfl rfl (by decide)
  exact ⟨h.1, h.2 (by decide)⟩

/-- C10: the confidence-bound claim is false: a JSON text with
`confidence: 7` has the value 7 passed through by `x || 0.8` (7 is truthy),
so the output confidence leaves the interval from 0 to 1. -/
theorem C10_counterexample :
    jsonParse sevenConfText = some (.obj [(confKey, .num 7)])
    ∧ (formatForMobile (.withText sevenConfText)).confidence = .num 7
    ∧ confOk (.num 7) = false :=
  ⟨rfl, rfl, rfl⟩

/-- C10 (amended): the confidence of every output is in the interval from 0
to 1 (0.8 on the heuristic path and for absent or falsy JSON confidence, 0.5
on the fallback path), unless the text parses as JSON carrying a truthy
`confidence` value, which is passed through unchecked. -/
theorem C10_amended (p : RawPayload) :
    confOk (formatForMobile p).confidence = true
    ∨ ∃ (t : JStr) (v c : JsonVal), p = .withText t ∧ jsonParse t = some v
        ∧ fieldOr v confKey = some c ∧ c.truthy = true
        ∧ (formatForMobile p).confidence = c := by
  cases p with
  | malformed => left; rfl
  | withText t =>
    cases hj : jsonParse t with
    | none =>
      left
      rw [formatForMobile_heuristic t hj]
      rfl
    | some v =>
      by_cases hn : v = JsonVal.null
      · left
        rw [hn] at hj
        rw [formatForMobile_nullText t hj]
        rfl
      · rw [formatForMobile_json t v hj hn]
        cases hc : fieldOr v confKey with
        | none =>
          left
          show confOk (jsOr (fieldOr v confKey) (.num confDefault)) = true
          rw [hc]
          rfl
        | some c =>
          cases ht : c.truthy with
          | false =>
            left
            show confOk (jsOr (fieldOr v confKey) (.num confDefault)) = true
            rw [hc]
            simp only [jsOr, ht]
            rfl
          | true =>
            right
            refine ⟨t, v, c, rfl, hj, hc, ht, ?_⟩
            show jsOr (fieldOr v confKey) (.num confDefault) = c
            rw [hc]
            simp [jsOr, ht]

theorem jsParseInt_empty : jsParseInt ("") = none := rfl

/-- C5: upstream failure classification, confirmed.  Status 429 gives
RATE_LIMIT_EXCEEDED with `retryAfter` parsed from the `retry-after` header
when one is present (in particular header `12` gives 12) and 60 when absent;
400 gives INVALID_REQUEST; 401 gives AUTHENTICATION_ERROR; an `ECONNABORTED`
abort gives TIMEOUT; everything else gives UNKNOWN_ERROR carrying the
underlying message when one is available.  First match wins. -/
theorem C5_theorem :
    (∀ (e : AxiosError) (r : AxiosResponse), e.response = some r → r.status = 429 →
      (classifyUpstreamError e).code = .RATE_LIMIT_EXCEEDED
      ∧ (∀ (s : String) (n : Int), r.retryAfterHeader = some s → jsParseInt s = some n →
          (classifyUpstreamError e).retryAfter = some (some n))
      ∧ (r.retryAfterHeader = none →
          (classifyUpstreamError e).retryAfter = some (some 60)))
    ∧ classifyUpstreamError ⟨some ⟨429, some ("12")⟩, none, none⟩ =
        ⟨.RATE_LIMIT_EXCEEDED, "Rate limit exceeded", some (some 12)⟩
    ∧ (∀ (e : AxiosError) (r : AxiosResponse), e.response = some r → r.status = 400 →
        classifyUpstreamError e =
          ⟨.INVALID_REQUEST, "Invalid request format or parameters", none⟩)
    ∧ (∀ (e : AxiosError) (r : AxiosResponse), e.response = some r → r.status = 401 →
        classifyUpstreamError e = ⟨.AUTHENTICATION_ERROR, "Authentication failed", none⟩)
    ∧ (∀ e : AxiosError, e.response = none → e.code = some ("ECONNABORTED") →
        classifyUpstreamError e = ⟨.TIMEOUT, "Request timeout", none⟩)
    ∧ (∀ e : AxiosError, e.response = none → e.code ≠ some ("ECONNABORTED") →
        (classifyUpstreamError e).code = .UNKNOWN_ERROR
        ∧ (∀ m : String, e.message = some m → m ≠ "" →
            (classifyUpstreamError e).message = m))
    ∧ (∀ (e : AxiosError) (r : AxiosResponse), e.response = some r →
        r.status ≠ 429 → r.status ≠ 400 → r.status ≠ 401 →
        e.code ≠ some ("ECONNABORTED") →
        (classifyUpstreamError e).code = .UNKNOWN_ERROR) := by
  refine ⟨?_, rfl, ?_, ?_, ?_, ?_, ?_⟩
  · intro e r he hs
    refine ⟨?_, ?_, ?_⟩
    · simp [classifyUpstreamError, he, hs]
    · intro s n hh hn
      have hne : s ≠ "" := by
        intro hempty
        rw [hempty, jsParseInt_empty] at hn
        exact Option.noConfusion hn
      simp [classifyUpstreamError, he, hs, rateLimitRetryAfter, hh, hne, hn]
    · intro hh
      simp [classifyUpstreamError, he, hs, rateLimitRetryAfter, hh]
  · intro e r he hs
    have h429 : r.status ≠ 429 := by omega
    simp [classifyUpstreamError, he, hs, h429]
  · intro e r he hs
    have h429 : r.status ≠ 429 := by omega
    have h400 : r.status ≠ 400 := by omega
    simp [classifyUpstreamError, he, hs, h429, h400]
  · intro e he hc
    simp [classifyUpstreamError, he, hc]
  · intro e he hc
    constructor
    · simp [classifyUpstreamError, he, hc]
    · intro m hm hme
      simp [classifyUpstreamError, he, hc, jsOrStr, hm, hme]
  · intro e r he h1 h2 h3 hc
    simp [classifyUpstreamError, he, h1, h2, h3, hc]

/-- C5 witness: the classification at concrete failed calls of each kind. -/
theorem C5_witness :
    classifyUpstreamError ⟨some ⟨400, none⟩, none, none⟩ =
      ⟨.INVALID_REQUEST, "Invalid request format or parameters", none⟩
    ∧ classifyUpstreamError ⟨none, some ("ECONNABORTED"), none⟩ =
      ⟨.TIMEOUT, "Request timeout", none⟩
    ∧ (classifyUpstreamError ⟨none, none, some ("boom")⟩).code = .UNKNOWN_ERROR
    ∧ (classifyUpstreamError ⟨some ⟨429, some ("12")⟩, none, none⟩).retryAfter =
      some (some 12) := by
  refine ⟨C5_theorem.2.2.1 _ ⟨400, none⟩ rfl rfl,
    C5_theorem.2.2.2.2.1 _ rfl rfl,
    (C5_theorem.2.2.2.2.2.1 _ rfl (by simp)).1,
    (C5_theorem.1 _ ⟨429, some ("12")⟩ rfl rfl).2.1 ("12") 12 rfl rfl⟩

/-- C6: the claim that the response's `code` field always carries the
classified error's kind is false for UNKNOWN_ERROR: the route's catch block
has no branch for it, so the generic 500 handler reports INTERNAL_ERROR
instead. -/
theorem C6_counterexample :
    (classifyUpstreamError ⟨none, none, some ("boom")⟩).code = .UNKNOWN_ERROR
    ∧ errorToResponse (classifyUpstreamError ⟨none, none, some ("boom")⟩) =
      .failure 500 .INTERNAL_ERROR none
    ∧ ErrorKind.INTERNAL_ERROR ≠ ErrorKind.UNKNOWN_ERROR :=
  ⟨rfl, rfl, by decide⟩

/-- C6 (amended): every error response carries the status the spec maps to
the `code` it actually reports; RATE_LIMIT_EXCEEDED, INVALID_REQUEST,
AUTHENTICATION_ERROR and TIMEOUT surface their own kind with 429, 400, 401
and 504; UNKNOWN_ERROR (and every other unlisted kind) is surfaced as
INTERNAL_ERROR with status 500. -/
theorem C6_amended :
    (∀ err : ClassifiedError, ∃ (c : ErrorKind) (ra : Option Int),
      errorToResponse err = .failure (specStatusFor c) c ra)
    ∧ (∀ err : ClassifiedError,
        err.code = .RATE_LIMIT_EXCEEDED ∨ err.code = .INVALID_REQUEST ∨
        err.code = .AUTHENTICATION_ERROR ∨ err.code = .TIMEOUT →
        ∃ ra : Option Int,
          errorToResponse err = .failure (specStatusFor err.code) err.code ra)
    ∧ (∀ err : ClassifiedError, err.code = .UNKNOWN_ERROR →
        errorToResponse err = .failure 500 .INTERNAL_ERROR none) := by
  refine ⟨?_, ?_, ?_⟩
  · intro err
    obtain ⟨c, m, ra⟩ := err
    cases c with
    | RATE_LIMIT_EXCEEDED => exact ⟨.RATE_LIMIT_EXCEEDED, some (jsOrRetry ra), rfl⟩
    | INVALID_REQUEST => exact ⟨.INVALID_REQUEST, none, rfl⟩
    | AUTHENTICATION_ERROR => exact ⟨.AUTHENTICATION_ERROR, none, rfl⟩
    | TIMEOUT => exact ⟨.TIMEOUT, none, rfl⟩
    | INVALID_PROMPT => exact ⟨.INTERNAL_ERROR, none, rfl⟩
    | PROMPT_TOO_LONG => exact ⟨.INTERNAL_ERROR, none, rfl⟩
    | UNKNOWN_ERROR => exact ⟨.INTERNAL_ERROR, none, rfl⟩
    | INTERNAL_ERROR => exact ⟨.INTERNAL_ERROR, none, rfl⟩
  · intro err h
    obtain ⟨c, m, ra⟩ := err
    rcases h with h | h | h | h <;> subst h
    · exact ⟨some (jsOrRetry ra), rfl⟩
    · exact ⟨none, rfl⟩
    · exact ⟨none, rfl⟩
    · exact ⟨none, rfl⟩
  · intro err h
    obtain ⟨c, m, ra⟩ := err
    subst h
    rfl

/-- C6 witness: the amended mapping at a concrete UNKNOWN_ERROR and a
concrete TIMEOUT. -/
theorem C6_witness :
    errorToResponse ⟨.UNKNOWN_ERROR, "boom", none⟩ = .failure 500 .INTERNAL_ERROR none
    ∧ errorToResponse ⟨.TIMEOUT, "Request timeout", none⟩ =
      .failure (specStatusFor .TIMEOUT) .TIMEOUT none := by
  exact ⟨C6_amended.2.2 _ rfl, rfl⟩

/-- C7: pre-flight validation, confirmed.  An absent, empty or non-string
prompt is rejected with INVALID_PROMPT and a prompt longer than 10000
characters with PROMPT_TOO_LONG, in both cases with status 400 and with a
result that is the same for every upstream outcome — i.e. decided before any
outbound call. -/
theorem C7_theorem :
    (∀ u, handleQuery none u = .failure 400 .INVALID_PROMPT none)
    ∧ (∀ u, handleQuery (some (.str (""))) u = .failure 400 .INVALID_PROMPT none)
    ∧ (∀ (b : Bool) u, handleQuery (some (.nonString b)) u =
        .failure 400 .INVALID_PROMPT none)
    ∧ (∀ (s : String) u, s.length > 10000 →
        handleQuery (some (.str s)) u = .failure 400 .PROMPT_TOO_LONG none) := by
  refine ⟨fun u => rfl, fun u => rfl, fun b u => rfl, ?_⟩
  intro s u h
  have h0 : ¬ (s.length = 0) := by omega
  simp [handleQuery, promptInvalid, promptLength, h0, h]

/-- C7 witness: a prompt of exactly 10001 characters is rejected as
PROMPT_TOO_LONG for two different upstream outcomes. -/
theorem C7_witness :
    longPrompt.length = 10001
    ∧ handleQuery (some (.str longPrompt)) (.ok (RawPayload.withText (("x").toList))) =
      .failure 400 .PROMPT_TOO_LONG none
    ∧ handleQuery (some (.str longPrompt)) (.error ⟨none, none, none⟩) =
      .failure 400 .PROMPT_TOO_LONG none := by
  have hlen : longPrompt.length = 10001 := by
    show (List.replicate 10001 'a').length = 10001
    rw [List.length_replicate]
  have hgt : longPrompt.length > 10000 := by omega
  exact ⟨hlen, C7_theorem.2.2.2 longPrompt _ hgt, C7_theorem.2.2.2 longPrompt _ hgt⟩
